import Mathlib

/-!
Verification development for the GraphQL query-construction layer of the
labelbox-python client.

The embedding covers:
* `src/labelbox/orm/query.py` — the `Query` builder (`format_where`,
  `format_clauses`, `format`, `format_top`, `format_param_declaration`),
  the where-clause validator (`logical_ops`, `check_where_clause`) and the
  soft-delete mutation (`delete`);
* `src/labelbox/schema/model_run.py` — `ModelRun.upsert_labels`;
* `src/labelbox/schema/confidence_presence_checker.py` —
  `LabelsConfidencePresenceChecker`.

The expression-tree and field/entity metadata classes
(`labelbox.orm.comparison`, `labelbox.orm.model`) are part of the repository
but are not among the provided source files; they are modelled from the
specification where noted.
-/

namespace Labelbox

/-- Scalar type tags of `Field.Type` (labelbox.orm.model, not among the
provided sources). Modelled from the spec: "scalar type tag (ID, String,
Int, Float, Boolean, DateTime, enum-like)". -/
inductive FieldType where
  | tID
  | tString
  | tInt
  | tFloat
  | tBoolean
  | tDateTime
deriving DecidableEq, Repr

/-- The Python enum member name of a scalar type tag (`field_type.name`). -/
def FieldType.name : FieldType → String
  | .tID => "ID"
  | .tString => "String"
  | .tInt => "Int"
  | .tFloat => "Float"
  | .tBoolean => "Boolean"
  | .tDateTime => "DateTime"

/-- A queryable attribute descriptor (labelbox.orm.model.Field, not among the
provided sources). Modelled from the spec: "Field: identifies a scalar
attribute of an entity. Attributes: logical name, wire name, scalar type
tag". Fields are immutable value objects; comparing two Field objects
compares their identity, modelled here as structural equality. -/
structure Fld where
  name : String
  graphqlName : String
  fieldType : FieldType
deriving DecidableEq, Repr

/-- A Python value bound in a comparison (the `value` attribute of a
Comparison and the values of the flattened variables mapping). -/
inductive Value where
  | vStr (s : String)
  | vInt (n : Int)
  | vBool (b : Bool)
  | vNone
deriving DecidableEq, Repr

/-- `Comparison.Op` (labelbox.orm.comparison, not among the provided
sources). Modelled from the spec: "operator (one of EQ, NE, LT, GT, LE,
GE)". -/
inductive CompOp where
  | EQ
  | NE
  | LT
  | GT
  | LE
  | GE
deriving DecidableEq, Repr

/-- `COMPARISON_TO_SUFFIX` (query.py lines 11-18). -/
def COMPARISON_TO_SUFFIX : CompOp → String
  | .EQ => ""
  | .NE => "_not"
  | .LT => "_lt"
  | .GT => "_gt"
  | .LE => "_lte"
  | .GE => "_gte"

/-- `LogicalExpression.Op` (labelbox.orm.comparison, not among the provided
sources). Modelled from the spec: "operator (AND, OR, NOT)". -/
inductive LogOp where
  | AND
  | OR
  | NOT
deriving DecidableEq, Repr

/-- Well-formed filter trees (labelbox.orm.comparison, not among the provided
sources). Modelled from the spec: "Comparison: leaf predicate node.
Attributes: field reference, operator, bound value. LogicalExpression:
interior predicate node ... NOT takes exactly one child; AND/OR take two."
The well-formedness conditions are captured by the constructors; the
LogicalExpression operator is baked into the constructor. -/
inductive WhereNode where
  | comparison (field : Fld) (op : CompOp) (value : Value)
  | wAnd (first second : WhereNode)
  | wOr (first second : WhereNode)
  | wNot (first : WhereNode)
deriving DecidableEq, Repr

/-- One parameter-table entry: parameter name bound to
`(value, originating field)`. The Python `params` dict is insertion ordered,
modelled as an association list. -/
abbrev Param := String × Value × Fld

/-- Python dict assignment `params[k] = v`: overwrite in place when the key
is already present, otherwise append, preserving insertion order. -/
def dictInsert (ps : List Param) (k : String) (v : Value × Fld) : List Param :=
  if ps.any (fun p => p.1 == k) then
    ps.map (fun p => if p.1 == k then (k, v) else p)
  else
    ps ++ [(k, v)]

/-- Decimal rendering of a natural number, modelling Python's
`"param_%d" % len(params)` interpolation. -/
def decimalRepr (n : Nat) : String :=
  if n = 0 then "0" else ⟨((Nat.digits 10 n).map Nat.digitChar).reverse⟩

/-- `format_where` (query.py lines 85-100), the recursive helper inside
`Query.format_clauses`. In the source it closes over the mutable `params`
dict; here the table is passed and returned explicitly. For a Comparison the
parameter name is `"param_%d" % len(params)` and `(value, field)` is stored
under it; a NOT node formats only its first child (its second child is
`None`); AND/OR format both children left to right against the growing
table, and `node.op.name.upper()` is the literal operator name, which is
already upper-case. -/
def formatWhere : WhereNode → List Param → String × List Param
  | .comparison f op v, ps =>
      ("\x7b" ++ f.graphqlName ++ COMPARISON_TO_SUFFIX op ++ ": $" ++
         ("param_" ++ decimalRepr ps.length) ++ "\x7d",
       dictInsert ps ("param_" ++ decimalRepr ps.length) (v, f))
  | .wNot a, ps =>
      ("\x7bNOT: [" ++ (formatWhere a ps).1 ++ "]\x7d", (formatWhere a ps).2)
  | .wAnd a b, ps =>
      ("\x7bAND: [" ++ (formatWhere a ps).1 ++ ", " ++
         (formatWhere b (formatWhere a ps).2).1 ++ "]\x7d",
       (formatWhere b (formatWhere a ps).2).2)
  | .wOr a b, ps =>
      ("\x7bOR: [" ++ (formatWhere a ps).1 ++ ", " ++
         (formatWhere b (formatWhere a ps).2).1 ++ "]\x7d",
       (formatWhere b (formatWhere a ps).2).2)

/-- `Field.Order` (labelbox.orm.model, not among the provided sources).
Modelled from the spec: "(field, direction) ordering pair",
"`orderBy: <wire_name>_<ASC|DESC>`". -/
inductive OrderDir where
  | Asc
  | Desc
deriving DecidableEq, Repr

/-- `order_by[1].name.upper()` for an ordering direction. -/
def OrderDir.nameUpper : OrderDir → String
  | .Asc => "ASC"
  | .Desc => "DESC"

/-- An entity type descriptor: its type name and ordered public field list
(labelbox.orm.model.Entity, not among the provided sources). Modelled from
the spec: "entity-type descriptors (ordered field lists, wire names, scalar
types)". -/
structure Entity where
  typeName : String
  fields : List Fld
deriving DecidableEq, Repr

/-- The special soft-delete marker field `Entity.deleted`, a Boolean field on
the DbObject base (labelbox.orm.model, not among the provided sources);
query.py line 200 special-cases it. -/
def deletedField : Fld :=
  { name := "deleted", graphqlName := "deleted", fieldType := .tBoolean }

/-- `Query` (query.py lines 44-68). The `subquery` attribute is either a
nested `Query` or an `Entity` subtype (`format_subquery`, lines 70-77
dispatches on which); the two cases appear as two constructors. -/
inductive Query where
  | entityQ (what : String) (entity : Entity) (whereClause : Option WhereNode)
      (paginate : Bool) (orderBy : Option (Fld × OrderDir))
  | nestedQ (what : String) (sub : Query) (whereClause : Option WhereNode)
      (paginate : Bool) (orderBy : Option (Fld × OrderDir))
deriving DecidableEq, Repr

/-- `Query.format_clauses` (query.py lines 79-113): renders the where,
pagination and ordering clauses; pagination is the literal placeholder pair
`skip: %d first: %d`; empty clause strings are filtered out; the joined
clauses are parenthesized only when non-empty. The where clause extends the
parameter table, returned as the second component. -/
def formatClauses (whereClause : Option WhereNode) (paginate : Bool)
    (orderBy : Option (Fld × OrderDir)) (params : List Param) :
    String × List Param :=
  (let whereStr :=
     match whereClause with
     | none => ""
     | some node => "where: " ++ (formatWhere node params).1
   let paginateStr := if paginate then "skip: %d first: %d" else ""
   let orderByStr :=
     match orderBy with
     | none => ""
     | some fo => "orderBy: " ++ fo.1.graphqlName ++ "_" ++ fo.2.nameUpper
   let clauses :=
     String.intercalate " "
       (([whereStr, paginateStr, orderByStr]).filter (fun s => s ≠ ""))
   if clauses ≠ "" then "(" ++ clauses ++ ")" else "",
   match whereClause with
   | none => params
   | some node => (formatWhere node params).2)

/-- `Query.format` (query.py lines 116-126), with `format_subquery`
(lines 70-77) inlined per constructor: a bare entity sub-selection renders
the space-joined wire names of its fields and contributes an empty parameter
table; a nested Query is formatted recursively and its parameter entries
seed the shared table that `format_clauses` then extends. -/
def Query.format : Query → String × List Param
  | .entityQ what e w pag ob =>
      (what ++ (formatClauses w pag ob []).1 ++ "\x7b" ++
         String.intercalate " " (e.fields.map Fld.graphqlName) ++ "\x7d",
       (formatClauses w pag ob []).2)
  | .nestedQ what sub w pag ob =>
      (what ++ (formatClauses w pag ob (Query.format sub).2).1 ++ "\x7b" ++
         (Query.format sub).1 ++ "\x7d",
       (formatClauses w pag ob (Query.format sub).2).2)

/-- `format_param_declaration` (query.py lines 21-41). Every parameter built
by where-clause formatting carries a Field, so only the Field branch of the
inner `attr_type` helper is reachable in this embedding. An empty table
yields the empty string. -/
def formatParamDeclaration (params : List Param) : String :=
  if params = [] then ""
  else
    "(" ++
      String.intercalate ", "
        (params.map (fun p => "$" ++ p.1 ++ ": " ++ p.2.2.fieldType.name ++ "!")) ++
      ")"

/-- `Query.format_top` (query.py lines 128-143): wraps the body in
`query <name>PyApi<param_decl>{...}` and flattens the parameter table to a
name-to-value mapping, dropping the originating field. -/
def Query.formatTop (q : Query) (name : String) : String × List (String × Value) :=
  ("query " ++ name ++ "PyApi" ++ formatParamDeclaration (Query.format q).2 ++
     "\x7b" ++ (Query.format q).1 ++ "\x7d",
   (Query.format q).2.map (fun p => (p.1, p.2.1)))

/-- `logical_ops` (query.py lines 161-175): all `LogicalExpression.Op`
operators in the clause, in depth-first pre-order. A NOT node has no second
child (`None`), on which the generator yields nothing. -/
def logicalOps : WhereNode → List LogOp
  | .comparison _ _ _ => []
  | .wAnd a b => LogOp.AND :: (logicalOps a ++ logicalOps b)
  | .wOr a b => LogOp.OR :: (logicalOps a ++ logicalOps b)
  | .wNot a => LogOp.NOT :: logicalOps a

/-- `logical_ops` applied to an optional where clause (`None` yields
nothing). -/
def logicalOpsOpt : Option WhereNode → List LogOp
  | none => []
  | some w => logicalOps w

/-- The `fields` helper inside `check_where_clause` (query.py lines
191-197): all fields of leaf Comparisons, depth-first, left to right. -/
def whereFields : WhereNode → List Fld
  | .comparison f _ _ => [f]
  | .wAnd a b => whereFields a ++ whereFields b
  | .wOr a b => whereFields a ++ whereFields b
  | .wNot a => whereFields a

/-- The `fields` helper applied to an optional where clause. -/
def whereFieldsOpt : Option WhereNode → List Fld
  | none => []
  | some w => whereFields w

/-- The exceptions raised by `check_where_clause`:
`InvalidAttributeError(entity, invalid_fields)` (the spec's InvalidField)
and `InvalidQueryError(message)` (the spec's InvalidQuery), from
labelbox.exceptions. -/
inductive QueryError where
  | invalidAttribute (entityTypeName : String) (fields : List Fld)
  | invalidQuery (message : String)
deriving DecidableEq, Repr

/-- The message of the duplicate-field `InvalidQueryError` (query.py lines
206-207); the `%r` rendering of the offending clause, whose format lives
outside the provided sources, is elided. -/
def duplicateFieldMessage : String :=
  "Where clause contains multiple comparisons for the same field."

/-- The message of the unsupported-logical-operator `InvalidQueryError`
(query.py lines 210-211). -/
def onlyAndMessage : String :=
  "Currently only AND logical ops are allowed in the where clause of a query."

/-- `where_fields` of `check_where_clause` (query.py line 200): the fields
of leaf Comparisons with the soft-delete marker `Entity.deleted` filtered
out. -/
def whereFieldList (whereClause : Option WhereNode) : List Fld :=
  (whereFieldsOpt whereClause).filter (fun f => f != deletedField)

/-- `invalid_fields = set(where_fields) - set(entity.fields())` (query.py
line 201), as a deduplicated list. -/
def invalidWhereFields (entity : Entity) (whereClause : Option WhereNode) :
    List Fld :=
  ((whereFieldList whereClause).filter
    (fun f => !(entity.fields.contains f))).dedup

/-- `check_where_clause` (query.py lines 178-211). In order: any collected
field outside the entity's declared field set raises InvalidAttributeError
(the invalid set is reported); then a repeated collected field raises
InvalidQueryError; then any logical operator besides AND
(`set(logical_ops(where)) not in (set(), {AND})`) raises
InvalidQueryError. -/
def checkWhereClause (entity : Entity) (whereClause : Option WhereNode) :
    Except QueryError Unit :=
  if invalidWhereFields entity whereClause ≠ [] then
    .error (.invalidAttribute entity.typeName
      (invalidWhereFields entity whereClause))
  else if (whereFieldList whereClause).dedup.length ≠
      (whereFieldList whereClause).length then
    .error (.invalidQuery duplicateFieldMessage)
  else if ¬ (∀ op ∈ logicalOpsOpt whereClause, op = LogOp.AND) then
    .error (.invalidQuery onlyAndMessage)
  else
    .ok ()

/-- `delete` (query.py lines 471-485). A DbObject is represented by its type
name and uid. The concatenation reproduces the Python template
`"""mutation delete%sPyApi%s{update%s(\n        where: {id: $%s} data:
{deleted: true}) {id}} """` byte for byte, with `id_param = type_name +
"Id"` and the `($<id_param>: ID!)` declaration; the returned mapping binds
the id parameter to the object's uid. -/
def deleteQuery (typeName uid : String) : String × List (String × String) :=
  ("mutation delete" ++ typeName ++ "PyApi" ++
     ("($" ++ (typeName ++ "Id") ++ ": ID!)") ++
     "\x7b" ++ ("update" ++ typeName ++ "(") ++ "\n        " ++
     ("where: \x7bid: $" ++ (typeName ++ "Id") ++ "\x7d") ++ " " ++
     "data: \x7bdeleted: true\x7d" ++ ") \x7bid\x7d\x7d ",
   [((typeName ++ "Id"), uid)])

/-- The Python runtime exceptions relevant to `ModelRun.upsert_labels`. -/
inductive PyError where
  | valueError (message : String)
  | typeError (message : String)
deriving DecidableEq, Repr

/-- model_run.py lines 35-37: the query template is written
`"""mutation ...""" (mutation_name)` — the triple-quoted string is called
with the argument `(mutation_name)` instead of being `%`-formatted. Calling
a str object raises TypeError at runtime, so constructing `query_str`
always fails. -/
def upsertLabelsQueryStr : Except PyError String :=
  .error (.typeError "str object is not callable")

/-- The polling loop of `ModelRun.upsert_labels` (model_run.py lines 39-53)
as it would run were `query_str` constructed: `execute k` is the truthy
`res[mutation_name]` of the k-th mutation attempt, if any; each falsy
response subtracts `sleep_time = 5` from the remaining timeout, and the
loop returns `None` once the timeout is exhausted. `fuel` bounds the
iterations; any fuel above `timeoutSeconds / 5 + 1` is never consumed. -/
def upsertPollLoop (execute : Nat → Option String) (timeoutSeconds : Int)
    (k : Nat) : Nat → Option String
  | 0 => none
  | fuel + 1 =>
    match execute k with
    | some r => some r
    | none =>
      if timeoutSeconds - 5 ≤ 0 then none
      else upsertPollLoop execute (timeoutSeconds - 5) (k + 1) fuel

/-- `ModelRun.upsert_labels` (model_run.py lines 20-53): an empty
`label_ids` list raises ValueError; then `query_str` is constructed (which
raises TypeError, see `upsertLabelsQueryStr`); only then would the polling
loop run. -/
def upsertLabels (labelIds : List String) (timeoutSeconds : Int)
    (execute : Nat → Option String) : Except PyError (Option String) :=
  if labelIds.length < 1 then
    .error (.valueError "Must provide at least one label id")
  else
    match upsertLabelsQueryStr with
    | .error e => .error e
    | .ok _ =>
        .ok (upsertPollLoop execute timeoutSeconds 0
          (timeoutSeconds.toNat / 5 + 2))

/-- A `ClassificationAnswer` as consumed by the confidence checker
(labelbox.data.annotation_types, not among the provided sources): only its
optional `confidence` attribute is read. -/
structure ClassificationAnswer where
  confidence : Option Float

/-- The runtime type of a `ClassificationAnnotation.value`
(labelbox.data.annotation_types.classification, not among the provided
sources). Modelled from the checker's dispatch in src/: Checklist and
Dropdown carry an answer list, Radio a single answer, Text a string;
`other` stands for a value of any further runtime type, on which the
checker raises. -/
inductive ClassificationValue where
  | checklist (answer : List ClassificationAnswer)
  | dropdown (answer : List ClassificationAnswer)
  | radio (answer : ClassificationAnswer)
  | text (answer : String)
  | other (typeName : String)

/-- A `ClassificationAnnotation` as consumed by the checker: its own
optional confidence (read when it occurs as a top-level annotation) and its
value (read when it occurs nested under another annotation's
`classifications`). -/
structure Classification where
  confidence : Option Float
  value : ClassificationValue

/-- An annotation as consumed by `_check_annotation`
(confidence_presence_checker.py lines 29-45): only the `confidence` and
`classifications` attributes are read. An absent/None classifications
attribute is indistinguishable from an empty list here (both are falsy). -/
structure AnnotationData where
  confidence : Option Float
  classifications : List Classification

/-- A deserialized Label (labelbox.data.annotation_types.label, not among
the provided sources): the checker reads only its `annotations` list. -/
structure Label where
  annotations : List AnnotationData

/-- A Python list comprehension `[f(x) for x in xs]` over a fallible `f`:
elements are evaluated left to right and the first exception propagates. -/
def mapChecks {α : Type} (f : α → Except String Bool) :
    List α → Except String (List Bool)
  | [] => .ok []
  | x :: xs =>
    match f x with
    | .error e => .error e
    | .ok b =>
      match mapChecks f xs with
      | .error e => .error e
      | .ok bs => .ok (b :: bs)

/-- `_check_classification_answer` (confidence_presence_checker.py lines
62-64). -/
def checkClassificationAnswer (answer : ClassificationAnswer) : Bool :=
  answer.confidence.isSome

/-- `_check_classification` (confidence_presence_checker.py lines 47-60):
Checklist/Dropdown check every answer in the list, Radio its single answer,
Text is always False, and any other value type raises. -/
def checkClassification (c : Classification) : Except String Bool :=
  match c.value with
  | .checklist answers => .ok (answers.any checkClassificationAnswer)
  | .dropdown answers => .ok (answers.any checkClassificationAnswer)
  | .radio a => .ok (checkClassificationAnswer a)
  | .text _ => .ok false
  | .other t => .error ("Unexpected classification value type " ++ t)

/-- `_check_annotation` (confidence_presence_checker.py lines 29-45): a
direct non-None confidence returns True at once; otherwise, when the
classifications attribute is truthy (non-empty), `any([...])` evaluates
every nested classification — so an exception anywhere propagates — and
returns whether any check succeeded; otherwise False. -/
def checkAnnotationData (a : AnnotationData) : Except String Bool :=
  if a.confidence.isSome then .ok true
  else if a.classifications.isEmpty then .ok false
  else
    match mapChecks checkClassification a.classifications with
    | .error e => .error e
    | .ok bs => .ok (bs.any id)

/-- `_check_label` (confidence_presence_checker.py lines 25-27). -/
def checkLabel (l : Label) : Except String Bool :=
  match mapChecks checkAnnotationData l.annotations with
  | .error e => .error e
  | .ok bs => .ok (bs.any id)

/-- `LabelsConfidencePresenceChecker.check` (confidence_presence_checker.py
lines 20-23) applied to the already-deserialized label list (the NDJson
converter is outside the provided sources). -/
def checkLabels (labels : List Label) : Except String Bool :=
  match mapChecks checkLabel labels with
  | .error e => .error e
  | .ok bs => .ok (bs.any id)

/-- The number of Comparison leaves in a filter tree. -/
def countComparisons : WhereNode → Nat
  | .comparison _ _ _ => 1
  | .wAnd a b => countComparisons a + countComparisons b
  | .wOr a b => countComparisons a + countComparisons b
  | .wNot a => countComparisons a

/-- The number of Comparison leaves in an optional filter tree. -/
def countComparisonsOpt : Option WhereNode → Nat
  | none => 0
  | some w => countComparisons w

/-- The number of Comparison leaves in all filter trees of a query,
innermost sub-selection first — the order in which `format` reaches them. -/
def Query.countComparisons : Query → Nat
  | .entityQ _ _ w _ _ => countComparisonsOpt w
  | .nestedQ _ sub w _ _ => Query.countComparisons sub + countComparisonsOpt w

/-- The parameter names a table of size `n` built by `format_where` holds:
`param_0`, ..., `param_<n-1>`, in insertion order. -/
def canonicalKeys (n : Nat) : List String :=
  (List.range n).map (fun i => "param_" ++ decimalRepr i)

/-- A parameter table is canonical when its keys are exactly
`param_0 .. param_<size-1>` in order. Every table `format` builds is
canonical. -/
def Canonical (ps : List Param) : Prop :=
  ps.map Prod.fst = canonicalKeys ps.length

theorem digitChar_injOn : ∀ a < 10, ∀ b < 10,
    Nat.digitChar a = Nat.digitChar b → a = b := by decide

theorem map_digitChar_inj : ∀ (l1 l2 : List Nat), (∀ x ∈ l1, x < 10) →
    (∀ x ∈ l2, x < 10) → l1.map Nat.digitChar = l2.map Nat.digitChar →
    l1 = l2 := by
  intro l1
  induction l1 with
  | nil =>
    intro l2 _ _ h
    cases l2 with
    | nil => rfl
    | cons b t => simp at h
  | cons a t ih =>
    intro l2 h1 h2 h
    cases l2 with
    | nil => simp at h
    | cons b t2 =>
      simp only [List.map_cons, List.cons.injEq] at h
      have ha : a = b := by
        refine digitChar_injOn a ?_ b ?_ h.1
        · exact h1 a (List.mem_cons_self a t)
        · exact h2 b (List.mem_cons_self b t2)
      have ht : t = t2 := by
        refine ih t2 ?_ ?_ h.2
        · intro x hx; exact h1 x (List.mem_cons_of_mem a hx)
        · intro x hx; exact h2 x (List.mem_cons_of_mem b hx)
      rw [ha, ht]

theorem decimalRepr_injective : Function.Injective decimalRepr := by
  intro m n h
  unfold decimalRepr at h
  have digitsEq : ∀ k j : Nat, k ≠ 0 → j ≠ 0 →
      (⟨((Nat.digits 10 k).map Nat.digitChar).reverse⟩ : String) =
        ⟨((Nat.digits 10 j).map Nat.digitChar).reverse⟩ → k = j := by
    intro k j _ _ hkj
    have hdata : ((Nat.digits 10 k).map Nat.digitChar).reverse =
        ((Nat.digits 10 j).map Nat.digitChar).reverse := by
      injection hkj
    have hmap := List.reverse_injective hdata
    have := map_digitChar_inj (Nat.digits 10 k) (Nat.digits 10 j)
      (fun _ hx => Nat.digits_lt_base (by norm_num) hx)
      (fun _ hx => Nat.digits_lt_base (by norm_num) hx) hmap
    exact Nat.digits.injective 10 this
  have zeroCase : ∀ j : Nat, j ≠ 0 →
      ("0" : String) = ⟨((Nat.digits 10 j).map Nat.digitChar).reverse⟩ →
      False := by
    intro j hj hzero
    have hdata : ['0'] = ((Nat.digits 10 j).map Nat.digitChar).reverse :=
      congrArg String.data hzero
    have hmap : (Nat.digits 10 j).map Nat.digitChar = ['0'] := by
      have := congrArg List.reverse hdata
      simpa using this.symm
    cases hdig : Nat.digits 10 j with
    | nil => rw [hdig] at hmap; simp at hmap
    | cons d t =>
      rw [hdig] at hmap
      simp only [List.map_cons, List.cons.injEq, List.map_eq_nil_iff] at hmap
      have hdmem : d ∈ Nat.digits 10 j := by
        rw [hdig]; exact List.mem_cons_self d t
      have hdlt : d < 10 := Nat.digits_lt_base (by norm_num) hdmem
      have hd0 : d = 0 := digitChar_injOn d hdlt 0 (by norm_num) hmap.1
      have : j = 0 := by
        have hof := Nat.ofDigits_digits 10 j
        rw [hdig, hmap.2, hd0] at hof
        simpa using hof.symm
      exact hj this
  by_cases hm : m = 0 <;> by_cases hn : n = 0
  · rw [hm, hn]
  · rw [if_pos hm, if_neg hn] at h
    exact absurd h (fun hh => zeroCase n hn hh)
  · rw [if_neg hm, if_pos hn] at h
    exact absurd h.symm (fun hh => zeroCase m hm hh)
  · rw [if_neg hm, if_neg hn] at h
    exact digitsEq m n hm hn h

theorem paramName_injective :
    Function.Injective (fun i => "param_" ++ decimalRepr i) := by
  intro i j h
  simp only at h
  have hdata := congrArg String.data h
  simp only [String.data_append] at hdata
  have := List.append_cancel_left hdata
  exact decimalRepr_injective (String.ext this)

theorem canonicalKeys_nodup (n : Nat) : (canonicalKeys n).Nodup :=
  (List.nodup_range n).map paramName_injective

theorem canonicalKeys_succ (n : Nat) :
    canonicalKeys (n + 1) = canonicalKeys n ++ ["param_" ++ decimalRepr n] := by
  simp [canonicalKeys, List.range_succ]

theorem paramName_fresh (n : Nat) :
    ("param_" ++ decimalRepr n) ∉ canonicalKeys n := by
  intro hmem
  simp only [canonicalKeys, List.mem_map, List.mem_range] at hmem
  obtain ⟨i, hi, heq⟩ := hmem
  have : i = n := paramName_injective heq
  omega

theorem dictInsert_fresh (ps : List Param) (k : String) (v : Value × Fld)
    (h : k ∉ ps.map Prod.fst) : dictInsert ps k v = ps ++ [(k, v)] := by
  unfold dictInsert
  rw [if_neg]
  intro hany
  simp only [List.any_eq_true, beq_iff_eq] at hany
  obtain ⟨p, hp, hpk⟩ := hany
  exact h (List.mem_map.mpr ⟨p, hp, hpk⟩)

theorem formatWhere_canonical (node : WhereNode) :
    ∀ ps : List Param, Canonical ps →
      Canonical (formatWhere node ps).2 ∧
      (formatWhere node ps).2.length = ps.length + countComparisons node := by
  induction node with
  | comparison f op v =>
    intro ps h
    have hfresh : ("param_" ++ decimalRepr ps.length) ∉ ps.map Prod.fst := by
      rw [h]; exact paramName_fresh ps.length
    have hins : (formatWhere (.comparison f op v) ps).2 =
        ps ++ [("param_" ++ decimalRepr ps.length, v, f)] :=
      dictInsert_fresh ps _ (v, f) hfresh
    constructor
    · unfold Canonical
      rw [hins]
      simp only [List.map_append, List.length_append, List.map_cons,
        List.map_nil, List.length_cons, List.length_nil]
      rw [h, canonicalKeys_succ]
    · rw [hins]; simp [countComparisons]
  | wNot a ih =>
    intro ps h
    exact ih ps h
  | wAnd a b iha ihb =>
    intro ps h
    obtain ⟨h1, l1⟩ := iha ps h
    obtain ⟨h2, l2⟩ := ihb _ h1
    refine ⟨h2, ?_⟩
    show (formatWhere b (formatWhere a ps).2).2.length = _
    rw [l2, l1, countComparisons]
    omega
  | wOr a b iha ihb =>
    intro ps h
    obtain ⟨h1, l1⟩ := iha ps h
    obtain ⟨h2, l2⟩ := ihb _ h1
    refine ⟨h2, ?_⟩
    show (formatWhere b (formatWhere a ps).2).2.length = _
    rw [l2, l1, countComparisons]
    omega

theorem formatClauses_canonical (w : Option WhereNode) (pag : Bool)
    (ob : Option (Fld × OrderDir)) (ps : List Param) (h : Canonical ps) :
    Canonical (formatClauses w pag ob ps).2 ∧
    (formatClauses w pag ob ps).2.length = ps.length + countComparisonsOpt w := by
  cases w with
  | none => exact ⟨h, by simp [formatClauses, countComparisonsOpt]⟩
  | some node =>
    have := formatWhere_canonical node ps h
    exact ⟨this.1, this.2⟩

theorem canonical_nil : Canonical [] := by
  unfold Canonical canonicalKeys
  simp

theorem query_format_canonical (q : Query) :
    Canonical (Query.format q).2 ∧
    (Query.format q).2.length = Query.countComparisons q := by
  induction q with
  | entityQ what e w pag ob =>
    have h := formatClauses_canonical w pag ob [] canonical_nil
    refine ⟨h.1, ?_⟩
    show (formatClauses w pag ob []).2.length = _
    rw [h.2]
    simp [Query.countComparisons]
  | nestedQ what sub w pag ob ih =>
    have h := formatClauses_canonical w pag ob (Query.format sub).2 ih.1
    refine ⟨h.1, ?_⟩
    show (formatClauses w pag ob (Query.format sub).2).2.length = _
    rw [h.2, ih.2]
    rfl

theorem dedup_length_eq_iff {α : Type} [DecidableEq α] (l : List α) :
    l.dedup.length = l.length ↔ l.Nodup := by
  constructor
  · intro h
    have heq : l.dedup = l := (l.dedup_sublist).eq_of_length h
    rw [← heq]
    exact l.nodup_dedup
  · intro h
    rw [List.dedup_eq_self.mpr h]

theorem invalidWhereFields_nil (e : Entity) (w : Option WhereNode)
    (hf : ∀ f ∈ whereFieldList w, f ∈ e.fields) :
    invalidWhereFields e w = [] := by
  unfold invalidWhereFields
  rw [List.filter_eq_nil_iff.mpr, List.dedup_nil]
  intro a ha
  simp only [Bool.not_eq_true', Bool.not_eq_eq_eq_not, Bool.not_true,
    Bool.not_eq_false]
  exact List.elem_iff.mpr (hf a ha)

theorem checkWhereClause_error_attr (e : Entity) (w : Option WhereNode)
    (h : invalidWhereFields e w ≠ []) :
    checkWhereClause e w =
      .error (.invalidAttribute e.typeName (invalidWhereFields e w)) := by
  unfold checkWhereClause
  rw [if_pos h]

theorem checkWhereClause_error_dup (e : Entity) (w : Option WhereNode)
    (hinv : invalidWhereFields e w = [])
    (hdup : ¬ (whereFieldList w).Nodup) :
    checkWhereClause e w = .error (.invalidQuery duplicateFieldMessage) := by
  unfold checkWhereClause
  rw [if_neg (by rw [hinv]; exact fun hc => hc rfl), if_pos]
  intro hlen
  exact hdup ((dedup_length_eq_iff _).mp hlen)

theorem checkWhereClause_error_logical (e : Entity) (w : Option WhereNode)
    (hinv : invalidWhereFields e w = [])
    (hnodup : (whereFieldList w).Nodup)
    (hop : ∃ op ∈ logicalOpsOpt w, op ≠ LogOp.AND) :
    checkWhereClause e w = .error (.invalidQuery onlyAndMessage) := by
  unfold checkWhereClause
  rw [if_neg (by rw [hinv]; exact fun hc => hc rfl),
    if_neg (by rw [(dedup_length_eq_iff _).mpr hnodup]; exact fun hc => hc rfl),
    if_pos]
  intro hall
  obtain ⟨op, hmem, hne⟩ := hop
  exact hne (hall op hmem)

theorem checkWhereClause_ok (e : Entity) (w : Option WhereNode)
    (hinv : invalidWhereFields e w = [])
    (hnodup : (whereFieldList w).Nodup)
    (hall : ∀ op ∈ logicalOpsOpt w, op = LogOp.AND) :
    checkWhereClause e w = .ok () := by
  unfold checkWhereClause
  rw [if_neg (by rw [hinv]; exact fun hc => hc rfl),
    if_neg (by rw [(dedup_length_eq_iff _).mpr hnodup]; exact fun hc => hc rfl),
    if_neg (by exact fun hc => hc hall)]

/-- Whether a `check_where_clause` outcome is an `InvalidQueryError` (of any
message) — the failure mode the spec calls InvalidQuery. -/
def isInvalidQueryResult : Except QueryError Unit → Bool
  | .error (.invalidQuery _) => true
  | _ => false

/-- C1: `format_where` walks the tree depth-first. A Comparison leaf renders
as `{<wire_name><operator_suffix>: $param_<n>}` where `n` is the parameter
table's size at that moment (the entry is stored under that name); the
suffix map is exactly EQ→"", NE→"_not", LT→"_lt", GT→"_gt", LE→"_lte",
GE→"_gte"; a NOT node renders as `{NOT: [<child>]}`; an AND/OR node renders
as `{<OP>: [<left>, <right>]}` with the upper-cased operator name, the
right child formatted against the table produced by the left child. -/
theorem c1_format_where_rendering :
    (∀ (f : Fld) (op : CompOp) (v : Value) (ps : List Param),
      formatWhere (.comparison f op v) ps =
        ("\x7b" ++ f.graphqlName ++ COMPARISON_TO_SUFFIX op ++ ": $" ++
           ("param_" ++ decimalRepr ps.length) ++ "\x7d",
         dictInsert ps ("param_" ++ decimalRepr ps.length) (v, f)))
    ∧ (COMPARISON_TO_SUFFIX .EQ = "" ∧ COMPARISON_TO_SUFFIX .NE = "_not" ∧
       COMPARISON_TO_SUFFIX .LT = "_lt" ∧ COMPARISON_TO_SUFFIX .GT = "_gt" ∧
       COMPARISON_TO_SUFFIX .LE = "_lte" ∧ COMPARISON_TO_SUFFIX .GE = "_gte")
    ∧ (∀ (a : WhereNode) (ps : List Param),
      formatWhere (.wNot a) ps =
        ("\x7bNOT: [" ++ (formatWhere a ps).1 ++ "]\x7d",
         (formatWhere a ps).2))
    ∧ (∀ (a b : WhereNode) (ps : List Param),
      formatWhere (.wAnd a b) ps =
        ("\x7bAND: [" ++ (formatWhere a ps).1 ++ ", " ++
           (formatWhere b (formatWhere a ps).2).1 ++ "]\x7d",
         (formatWhere b (formatWhere a ps).2).2))
    ∧ (∀ (a b : WhereNode) (ps : List Param),
      formatWhere (.wOr a b) ps =
        ("\x7bOR: [" ++ (formatWhere a ps).1 ++ ", " ++
           (formatWhere b (formatWhere a ps).2).1 ++ "]\x7d",
         (formatWhere b (formatWhere a ps).2).2)) :=
  ⟨fun _ _ _ _ => rfl, ⟨rfl, rfl, rfl, rfl, rfl, rfl⟩,
   fun _ _ => rfl, fun _ _ _ => rfl, fun _ _ _ => rfl⟩

/-- C2: formatting any query — nested sub-selections included — produces
exactly one parameter-table entry per Comparison leaf, the generated
parameter names are pairwise distinct across the whole query, and the
flattened variables mapping of `format_top` has exactly those names as
keys, each bound to the value stored in the table. (This holds for every
query, in particular for those whose filter trees pass the validator.) -/
theorem c2_parameter_table (q : Query) (name : String) :
    (Query.format q).2.length = Query.countComparisons q
    ∧ ((Query.format q).2.map Prod.fst).Nodup
    ∧ (Query.formatTop q name).2 =
        (Query.format q).2.map (fun p => (p.1, p.2.1)) :=
  ⟨(query_format_canonical q).2,
   by rw [(query_format_canonical q).1]; exact canonicalKeys_nodup _,
   rfl⟩

/-- A concrete name field used in concrete instances. -/
def fName : Fld := ⟨"name", "name", .tString⟩

/-- A concrete uid field (wire name `id`) used in concrete instances. -/
def fUid : Fld := ⟨"uid", "id", .tID⟩

/-- A concrete field declared on no entity below. -/
def fBogus : Fld := ⟨"bogus", "bogus", .tString⟩

/-- A concrete entity type with declared fields `uid` and `name`. -/
def entProject : Entity := ⟨"Project", [fUid, fName]⟩

theorem whereFieldList_mem_fields (e : Entity) (w : WhereNode)
    (hf : ∀ f ∈ whereFields w, f ≠ deletedField → f ∈ e.fields) :
    ∀ f ∈ whereFieldList (some w), f ∈ e.fields := by
  intro f hfm
  unfold whereFieldList at hfm
  simp only [List.mem_filter, bne_iff_ne] at hfm
  exact hf f hfm.1 hfm.2

/-- C3 counterexample: on a tree that contains an OR but also mentions an
undeclared field, `check_where_clause` raises InvalidAttributeError (the
spec's InvalidField), not InvalidQuery — the field check runs first. -/
theorem c3_counterexample :
    ((logicalOps (WhereNode.wOr (.comparison fBogus .EQ (.vInt 1))
        (.comparison fName .EQ (.vInt 2)))).any
      (fun op => op != LogOp.AND) = true)
    ∧ isInvalidQueryResult (checkWhereClause entProject
        (some (WhereNode.wOr (.comparison fBogus .EQ (.vInt 1))
          (.comparison fName .EQ (.vInt 2))))) = false := by
  decide

/-- C3 amended: for every entity type and every filter tree whose comparison
fields (the soft-delete marker aside) are all declared on the entity, the
presence of any OR or NOT makes `check_where_clause` raise InvalidQuery;
and for every entity and tree whatsoever, if all logical operators are AND
the clause is never rejected on the unsupported-logical-operator ground. -/
theorem c3_amended :
    (∀ (e : Entity) (w : WhereNode),
      (∀ f ∈ whereFields w, f ≠ deletedField → f ∈ e.fields) →
      (∃ op ∈ logicalOps w, op ≠ LogOp.AND) →
      ∃ m, checkWhereClause e (some w) = .error (.invalidQuery m))
    ∧ (∀ (e : Entity) (w : Option WhereNode),
      (∀ op ∈ logicalOpsOpt w, op = LogOp.AND) →
      checkWhereClause e w ≠ .error (.invalidQuery onlyAndMessage)) := by
  constructor
  · intro e w hf hop
    have hinv := invalidWhereFields_nil e (some w)
      (whereFieldList_mem_fields e w hf)
    have hop2 : ∃ op ∈ logicalOpsOpt (some w), op ≠ LogOp.AND := hop
    by_cases hdup : (whereFieldList (some w)).Nodup
    · exact ⟨onlyAndMessage,
        checkWhereClause_error_logical e (some w) hinv hdup hop2⟩
    · exact ⟨duplicateFieldMessage,
        checkWhereClause_error_dup e (some w) hinv hdup⟩
  · intro e w hall
    by_cases h1 : invalidWhereFields e w = []
    · by_cases h2 : (whereFieldList w).Nodup
      · rw [checkWhereClause_ok e w h1 h2 hall]
        exact fun hc => Except.noConfusion hc
      · rw [checkWhereClause_error_dup e w h1 h2]
        intro hc
        have hq : QueryError.invalidQuery duplicateFieldMessage =
            QueryError.invalidQuery onlyAndMessage := by
          injection hc
        have hmsg : duplicateFieldMessage = onlyAndMessage := by
          injection hq
        exact absurd hmsg (by decide)
    · rw [checkWhereClause_error_attr e w h1]
      simp

/-- C3 amended, witness at concrete inputs. -/
theorem c3_amended_witness :
    (∃ m, checkWhereClause entProject
      (some (WhereNode.wOr (.comparison fUid .EQ (.vInt 1))
        (.comparison fName .EQ (.vInt 2)))) = .error (.invalidQuery m))
    ∧ checkWhereClause entProject
        (some (WhereNode.wAnd (.comparison fUid .EQ (.vInt 1))
          (.comparison fName .EQ (.vInt 2)))) ≠
        .error (.invalidQuery onlyAndMessage) :=
  ⟨c3_amended.1 entProject _ (by decide) (by decide),
   c3_amended.2 entProject _ (by decide)⟩

/-- C4 counterexample: a tree with two Comparisons on the same undeclared
(non-soft-delete) field makes `check_where_clause` raise
InvalidAttributeError, not InvalidQuery — the field check runs first. -/
theorem c4_counterexample :
    (¬ (whereFieldList (some (WhereNode.wAnd
        (.comparison fBogus .EQ (.vInt 1))
        (.comparison fBogus .NE (.vInt 2))))).Nodup)
    ∧ isInvalidQueryResult (checkWhereClause entProject
        (some (WhereNode.wAnd (.comparison fBogus .EQ (.vInt 1))
          (.comparison fBogus .NE (.vInt 2))))) = false := by
  decide

/-- C4 amended: for every entity type and every filter tree whose comparison
fields (the soft-delete marker aside) are all declared on the entity, a
repeated field among the collected (non-soft-delete) comparison fields
makes `check_where_clause` raise InvalidQuery, regardless of the comparison
operators used. -/
theorem c4_amended (e : Entity) (w : WhereNode)
    (hf : ∀ f ∈ whereFields w, f ≠ deletedField → f ∈ e.fields)
    (hdup : ¬ (whereFieldList (some w)).Nodup) :
    checkWhereClause e (some w) = .error (.invalidQuery duplicateFieldMessage) :=
  checkWhereClause_error_dup e (some w)
    (invalidWhereFields_nil e (some w) (whereFieldList_mem_fields e w hf)) hdup

/-- C4 amended, witness at a concrete input with two different operators on
the same declared field. -/
theorem c4_amended_witness :
    checkWhereClause entProject
      (some (WhereNode.wAnd (.comparison fName .EQ (.vInt 1))
        (.comparison fName .GT (.vInt 2)))) =
      .error (.invalidQuery duplicateFieldMessage) :=
  c4_amended entProject _ (by decide) (by decide)

/-- C5: a Comparison on a field that is neither declared on the entity nor
the soft-delete marker makes `check_where_clause` raise
InvalidAttributeError (the spec's InvalidField) for any value; and a
Comparison on the soft-delete marker field never raises anything, even
though that field need not be declared. -/
theorem c5_invalid_field (e : Entity) (f : Fld) (v : Value)
    (hnot : f ∉ e.fields) (hne : f ≠ deletedField) :
    checkWhereClause e (some (.comparison f .EQ v)) =
      .error (.invalidAttribute e.typeName [f])
    ∧ ∀ (op : CompOp) (v2 : Value),
        checkWhereClause e (some (.comparison deletedField op v2)) = .ok () := by
  constructor
  · have hb : (f != deletedField) = true := bne_iff_ne.mpr hne
    have hwfl : whereFieldList (some (.comparison f .EQ v)) = [f] := by
      unfold whereFieldList whereFieldsOpt whereFields
      simp [List.filter_cons, hb]
    have hcont : e.fields.contains f = false := by
      rw [← Bool.not_eq_true]
      intro hc
      exact hnot (List.elem_iff.mp hc)
    have hinv : invalidWhereFields e (some (.comparison f .EQ v)) = [f] := by
      unfold invalidWhereFields
      rw [hwfl]
      simp [List.filter_cons, hcont, hnot]
    rw [checkWhereClause_error_attr e _ (by rw [hinv]; simp), hinv]
  · intro op v2
    have hwfl : whereFieldList (some (.comparison deletedField op v2)) = [] := by
      simp [whereFieldList, whereFieldsOpt, whereFields]
    refine checkWhereClause_ok e _ ?_ ?_ ?_
    · simp [invalidWhereFields, hwfl]
    · rw [hwfl]; exact List.nodup_nil
    · intro o ho
      simp [logicalOpsOpt, logicalOps] at ho

/-- C5, witness at concrete inputs. -/
theorem c5_invalid_field_witness :
    checkWhereClause entProject (some (.comparison fBogus .EQ (.vStr "x"))) =
      .error (.invalidAttribute "Project" [fBogus])
    ∧ checkWhereClause entProject
        (some (.comparison deletedField .EQ (.vBool true))) = .ok () :=
  ⟨(c5_invalid_field entProject fBogus (.vStr "x")
      (by decide) (by decide)).1,
   (c5_invalid_field entProject fBogus (.vStr "x")
      (by decide) (by decide)).2 .EQ (.vBool true)⟩

/-- C6 counterexample: on a declared field, the AND combination of two
Comparisons on that same field does not succeed — it raises InvalidQuery
(duplicate comparisons on one field), contradicting the claim that the AND
variant of the tree raises nothing. -/
theorem c6_counterexample :
    fName ∈ entProject.fields
    ∧ checkWhereClause entProject
        (some (WhereNode.wAnd (.comparison fName .EQ (.vInt 1))
          (.comparison fName .EQ (.vInt 2)))) =
        .error (.invalidQuery duplicateFieldMessage) :=
  ⟨by decide, rfl⟩

/-- C6 amended: for every entity type and declared field f, the OR tree
`OR(f = 1, f = 2)` raises InvalidQuery; but the same tree with AND also
raises InvalidQuery (two comparisons on one field) whenever f is not the
soft-delete marker. An AND of comparisons on two distinct declared fields
raises nothing. -/
theorem c6_amended :
    (∀ (e : Entity) (f : Fld), f ∈ e.fields →
      ∃ m, checkWhereClause e
        (some (WhereNode.wOr (.comparison f .EQ (.vInt 1))
          (.comparison f .EQ (.vInt 2)))) = .error (.invalidQuery m))
    ∧ (∀ (e : Entity) (f : Fld), f ∈ e.fields → f ≠ deletedField →
      checkWhereClause e
        (some (WhereNode.wAnd (.comparison f .EQ (.vInt 1))
          (.comparison f .EQ (.vInt 2)))) =
        .error (.invalidQuery duplicateFieldMessage))
    ∧ (∀ (e : Entity) (f g : Fld), f ∈ e.fields → g ∈ e.fields → f ≠ g →
      checkWhereClause e
        (some (WhereNode.wAnd (.comparison f .EQ (.vInt 1))
          (.comparison g .EQ (.vInt 2)))) = .ok ()) := by
  refine ⟨?_, ?_, ?_⟩
  · intro e f hmem
    have hinv : invalidWhereFields e
        (some (WhereNode.wOr (.comparison f .EQ (.vInt 1))
          (.comparison f .EQ (.vInt 2)))) = [] := by
      refine invalidWhereFields_nil e _ ?_
      intro x hx
      simp only [whereFieldList, whereFieldsOpt, whereFields,
        List.mem_filter, List.mem_append, List.mem_singleton] at hx
      rcases hx.1 with h | h <;> exact h ▸ hmem
    by_cases hdel : f = deletedField
    · refine ⟨onlyAndMessage,
        checkWhereClause_error_logical e _ hinv ?_ ?_⟩
      · have hwfl : whereFieldList
            (some (WhereNode.wOr (.comparison f .EQ (.vInt 1))
              (.comparison f .EQ (.vInt 2)))) = [] := by
          subst hdel
          simp [whereFieldList, whereFieldsOpt, whereFields]
        rw [hwfl]
        exact List.nodup_nil
      · exact ⟨LogOp.OR, by simp [logicalOpsOpt, logicalOps], by decide⟩
    · refine ⟨duplicateFieldMessage,
        checkWhereClause_error_dup e _ hinv ?_⟩
      have hwfl : whereFieldList
          (some (WhereNode.wOr (.comparison f .EQ (.vInt 1))
            (.comparison f .EQ (.vInt 2)))) = [f, f] := by
        simp [whereFieldList, whereFieldsOpt, whereFields,
          List.filter_cons, bne_iff_ne.mpr hdel]
      rw [hwfl]
      simp
  · intro e f hmem hdel
    refine checkWhereClause_error_dup e _ ?_ ?_
    · refine invalidWhereFields_nil e _ ?_
      intro x hx
      simp only [whereFieldList, whereFieldsOpt, whereFields,
        List.mem_filter, List.mem_append, List.mem_singleton] at hx
      rcases hx.1 with h | h <;> exact h ▸ hmem
    · have hwfl : whereFieldList
          (some (WhereNode.wAnd (.comparison f .EQ (.vInt 1))
            (.comparison f .EQ (.vInt 2)))) = [f, f] := by
        simp [whereFieldList, whereFieldsOpt, whereFields,
          List.filter_cons, bne_iff_ne.mpr hdel]
      rw [hwfl]
      simp
  · intro e f g hf hg hfg
    refine checkWhereClause_ok e _ ?_ ?_ ?_
    · refine invalidWhereFields_nil e _ ?_
      intro x hx
      simp only [whereFieldList, whereFieldsOpt, whereFields,
        List.mem_filter, List.mem_append, List.mem_singleton] at hx
      rcases hx.1 with h | h
      · exact h ▸ hf
      · exact h ▸ hg
    · have hsub : whereFieldList
          (some (WhereNode.wAnd (.comparison f .EQ (.vInt 1))
            (.comparison g .EQ (.vInt 2)))) =
          ([f, g] : List Fld).filter (fun x => x != deletedField) := rfl
      rw [hsub]
      refine List.Nodup.filter _ ?_
      simp [hfg]
    · intro o ho
      simp only [logicalOpsOpt, logicalOps, List.append_nil, List.mem_cons,
        List.not_mem_nil, or_false] at ho
      exact ho

/-- C6 amended, witness at concrete inputs. -/
theorem c6_amended_witness :
    (∃ m, checkWhereClause entProject
      (some (WhereNode.wOr (.comparison fName .EQ (.vInt 1))
        (.comparison fName .EQ (.vInt 2)))) = .error (.invalidQuery m))
    ∧ checkWhereClause entProject
        (some (WhereNode.wAnd (.comparison fName .EQ (.vInt 1))
          (.comparison fName .EQ (.vInt 2)))) =
        .error (.invalidQuery duplicateFieldMessage)
    ∧ checkWhereClause entProject
        (some (WhereNode.wAnd (.comparison fUid .EQ (.vInt 1))
          (.comparison fName .EQ (.vInt 2)))) = .ok () :=
  ⟨c6_amended.1 entProject fName (by decide),
   c6_amended.2.1 entProject fName (by decide) (by decide),
   c6_amended.2.2 entProject fUid fName (by decide) (by decide) (by decide)⟩

/-- `needle` occurs as a contiguous substring of `hay`. -/
def strContains (needle hay : String) : Prop :=
  List.IsInfix needle.data hay.data

theorem strContains_of_eq (a s b hay : String) (h : hay = a ++ s ++ b) :
    strContains s hay := by
  subst h
  exact ⟨a.data, b.data, by simp [String.data_append]⟩

/-- C7: for every DB object (type name and uid), the `delete` mutation text
contains the literal `data: {deleted: true}` payload and the filter
`where: {id: $<id_param>}` with `<id_param> = <type_name>Id`; it is an
update mutation (`update<TypeName>(...)`), not a row-removal operation; and
the variables mapping binds the id parameter to the object's uid. -/
theorem c7_delete_soft (typeName uid : String) :
    strContains "data: \x7bdeleted: true\x7d" (deleteQuery typeName uid).1
    ∧ strContains ("where: \x7bid: $" ++ (typeName ++ "Id") ++ "\x7d")
        (deleteQuery typeName uid).1
    ∧ strContains ("update" ++ typeName ++ "(") (deleteQuery typeName uid).1
    ∧ (deleteQuery typeName uid).2 = [(typeName ++ "Id", uid)] := by
  refine ⟨?_, ?_, ?_, rfl⟩
  · exact strContains_of_eq
      ("mutation delete" ++ typeName ++ "PyApi" ++
        ("($" ++ (typeName ++ "Id") ++ ": ID!)") ++
        "\x7b" ++ ("update" ++ typeName ++ "(") ++ "\n        " ++
        ("where: \x7bid: $" ++ (typeName ++ "Id") ++ "\x7d") ++ " ")
      "data: \x7bdeleted: true\x7d" (") \x7bid\x7d\x7d ") _ rfl
  · refine strContains_of_eq
      ("mutation delete" ++ typeName ++ "PyApi" ++
        ("($" ++ (typeName ++ "Id") ++ ": ID!)") ++
        "\x7b" ++ ("update" ++ typeName ++ "(") ++ "\n        ")
      ("where: \x7bid: $" ++ (typeName ++ "Id") ++ "\x7d")
      (" " ++ "data: \x7bdeleted: true\x7d" ++ ") \x7bid\x7d\x7d ") _ ?_
    simp only [deleteQuery, String.append_assoc]
  · refine strContains_of_eq
      ("mutation delete" ++ typeName ++ "PyApi" ++
        ("($" ++ (typeName ++ "Id") ++ ": ID!)") ++ "\x7b")
      ("update" ++ typeName ++ "(")
      ("\n        " ++
        ("where: \x7bid: $" ++ (typeName ++ "Id") ++ "\x7d") ++ " " ++
        "data: \x7bdeleted: true\x7d" ++ ") \x7bid\x7d\x7d ") _ ?_
    simp only [deleteQuery, String.append_assoc]

/-- A concrete single-field entity for the no-parameter query scenario. -/
def entProjectNameOnly : Entity := ⟨"Project", [fName]⟩

/-- C8 counterexample: a no-filter, no-ordering query over a bare entity
sub-selection formats to text with no parameter-declaration parenthesis at
all — the substring `()` does not occur — rather than to text containing an
empty parenthesis; the variables mapping is empty. -/
theorem c8_counterexample :
    Query.formatTop (.entityQ "project" entProjectNameOnly none false none)
        "GetProject" =
      ("query GetProjectPyApi\x7bproject\x7bname\x7d\x7d", [])
    ∧ ¬ strContains "()" "query GetProjectPyApi\x7bproject\x7bname\x7d\x7d" := by
  constructor
  · rfl
  · unfold strContains
    decide

/-- C8 amended: a query with no filter, no ordering and a bare entity
sub-selection has an empty parameter table, so `format_top` omits the
parameter declaration entirely (the declaration is the empty string, no
parenthesis is emitted) and returns an empty variables mapping. -/
theorem c8_amended (what : String) (e : Entity) (name : String) :
    (Query.format (.entityQ what e none false none)).2 = []
    ∧ formatParamDeclaration
        (Query.format (.entityQ what e none false none)).2 = ""
    ∧ Query.formatTop (.entityQ what e none false none) name =
        ("query " ++ name ++ "PyApi" ++ "\x7b" ++ what ++ "\x7b" ++
           String.intercalate " " (e.fields.map Fld.graphqlName) ++
           "\x7d\x7d", []) := by
  refine ⟨rfl, rfl, ?_⟩
  unfold Query.formatTop
  have hempty : String.intercalate " " ([] : List String) = "" := rfl
  simp [Query.format, formatClauses, formatParamDeclaration, hempty,
    String.append_assoc, String.append_empty]

/-- C9: for any non-empty label_ids list, `ModelRun.upsert_labels` never
reaches the polling loop at all — `query_str` construction calls the
template string instead of `%`-formatting it, raising TypeError — so it
does not poll and return `None` on an always-unready server; here at a
concrete non-empty input against a never-ready server. -/
theorem c9_upsert_labels_type_error :
    upsertLabels ["cklabelid1"] 600 (fun _ => none) =
      .error (.typeError "str object is not callable")
    ∧ upsertLabels ["cklabelid1"] 600 (fun _ => none) ≠ .ok none :=
  ⟨rfl, fun hc => by
    have : Except.error (PyError.typeError "str object is not callable") =
        (Except.ok none : Except PyError (Option String)) := hc
    exact Except.noConfusion this⟩

/-- The claim's criterion for one classification value: some answer (the
single Radio answer, or some member of a Checklist/Dropdown answer list)
carries a non-None confidence; a Text value never does. -/
def valueHasConfidence : ClassificationValue → Bool
  | .checklist answers => answers.any (fun a => a.confidence.isSome)
  | .dropdown answers => answers.any (fun a => a.confidence.isSome)
  | .radio a => a.confidence.isSome
  | .text _ => false
  | .other _ => false

/-- A classification value the checker's dispatch recognizes (everything
except `other`). -/
def valueRecognized : ClassificationValue → Bool
  | .other _ => false
  | _ => true

/-- The claim's criterion for a label list: some label contains some
annotation that carries a non-None confidence directly or contains a nested
classification whose value carries one. -/
def labelsHaveConfidence (labels : List Label) : Bool :=
  labels.any (fun l => l.annotations.any (fun a =>
    a.confidence.isSome ||
      a.classifications.any (fun c => valueHasConfidence c.value)))

/-- All classification values in a label list are recognized. -/
def labelsRecognized (labels : List Label) : Bool :=
  labels.all (fun l => l.annotations.all (fun a =>
    a.classifications.all (fun c => valueRecognized c.value)))

theorem any_id_map {α : Type} (g : α → Bool) (l : List α) :
    (l.map g).any id = l.any g := by
  induction l with
  | nil => rfl
  | cons x t ih => simp [ih]

theorem checkClassificationAnswer_def :
    checkClassificationAnswer = fun a => a.confidence.isSome := rfl

theorem checkClassification_recognized (c : Classification)
    (h : valueRecognized c.value = true) :
    checkClassification c = .ok (valueHasConfidence c.value) := by
  cases hv : c.value with
  | checklist answers => simp [checkClassification, valueHasConfidence, hv,
      checkClassificationAnswer_def]
  | dropdown answers => simp [checkClassification, valueHasConfidence, hv,
      checkClassificationAnswer_def]
  | radio a => simp [checkClassification, valueHasConfidence, hv,
      checkClassificationAnswer_def]
  | text s => simp [checkClassification, valueHasConfidence, hv]
  | other t => rw [hv] at h; exact absurd h (by simp [valueRecognized])

theorem mapChecks_classifications (cs : List Classification)
    (h : cs.all (fun c => valueRecognized c.value) = true) :
    mapChecks checkClassification cs =
      .ok (cs.map (fun c => valueHasConfidence c.value)) := by
  induction cs with
  | nil => rfl
  | cons c t ih =>
    simp only [List.all_cons, Bool.and_eq_true] at h
    rw [mapChecks, checkClassification_recognized c h.1, ih h.2]
    rfl

theorem checkAnnotationData_recognized (a : AnnotationData)
    (h : a.classifications.all (fun c => valueRecognized c.value) = true) :
    checkAnnotationData a =
      .ok (a.confidence.isSome ||
        a.classifications.any (fun c => valueHasConfidence c.value)) := by
  unfold checkAnnotationData
  by_cases hconf : a.confidence.isSome
  · rw [if_pos hconf, hconf]
    simp
  · rw [if_neg hconf]
    have hconf2 : a.confidence.isSome = false := by
      rw [← Bool.not_eq_true]; exact hconf
    rw [hconf2]
    by_cases hemp : a.classifications.isEmpty
    · rw [if_pos hemp]
      rw [List.isEmpty_iff.mp hemp]
      simp
    · rw [if_neg hemp, mapChecks_classifications a.classifications h]
      show Except.ok
          ((a.classifications.map (fun c => valueHasConfidence c.value)).any id) =
        Except.ok (false ||
          a.classifications.any (fun c => valueHasConfidence c.value))
      rw [any_id_map]
      simp

theorem mapChecks_annotations (as1 : List AnnotationData)
    (h : as1.all (fun a =>
      a.classifications.all (fun c => valueRecognized c.value)) = true) :
    mapChecks checkAnnotationData as1 =
      .ok (as1.map (fun a => a.confidence.isSome ||
        a.classifications.any (fun c => valueHasConfidence c.value))) := by
  induction as1 with
  | nil => rfl
  | cons a t ih =>
    simp only [List.all_cons, Bool.and_eq_true] at h
    rw [mapChecks, checkAnnotationData_recognized a h.1, ih h.2]
    rfl

theorem checkLabel_recognized (l : Label)
    (h : l.annotations.all (fun a =>
      a.classifications.all (fun c => valueRecognized c.value)) = true) :
    checkLabel l =
      .ok (l.annotations.any (fun a => a.confidence.isSome ||
        a.classifications.any (fun c => valueHasConfidence c.value))) := by
  unfold checkLabel
  rw [mapChecks_annotations l.annotations h]
  show Except.ok ((l.annotations.map (fun a => a.confidence.isSome ||
      a.classifications.any (fun c => valueHasConfidence c.value))).any id) = _
  rw [any_id_map]

theorem mapChecks_labels (ls : List Label) (h : labelsRecognized ls = true) :
    mapChecks checkLabel ls =
      .ok (ls.map (fun l => l.annotations.any (fun a =>
        a.confidence.isSome ||
          a.classifications.any (fun c => valueHasConfidence c.value)))) := by
  induction ls with
  | nil => rfl
  | cons l t ih =>
    unfold labelsRecognized at h
    simp only [List.all_cons, Bool.and_eq_true] at h
    have hl : l.annotations.all (fun a =>
        a.classifications.all (fun c => valueRecognized c.value)) = true := h.1
    rw [mapChecks, checkLabel_recognized l hl, ih h.2]
    rfl

/-- C10: on deserialized labels whose classification values are all of the
recognized kinds, `check` returns exactly the claim's criterion — True iff
some label has some annotation with a direct non-None confidence or with a
nested classification whose answer (some answer of a Checklist/Dropdown
list, or the Radio answer) has a non-None confidence; a Text value never
contributes True; and a classification value of any other type raises. -/
theorem c10_confidence_checker :
    (∀ labels : List Label, labelsRecognized labels = true →
      checkLabels labels = .ok (labelsHaveConfidence labels))
    ∧ (∀ (conf : Option Float) (s : String),
      checkClassification ⟨conf, .text s⟩ = .ok false)
    ∧ (∀ (conf : Option Float) (t : String),
      checkClassification ⟨conf, .other t⟩ =
        .error ("Unexpected classification value type " ++ t)) := by
  refine ⟨?_, fun _ _ => rfl, fun _ _ => rfl⟩
  intro labels h
  unfold checkLabels
  rw [mapChecks_labels labels h]
  show Except.ok ((labels.map (fun l => l.annotations.any (fun a =>
      a.confidence.isSome ||
        a.classifications.any (fun c => valueHasConfidence c.value)))).any id) = _
  rw [any_id_map]
  rfl

/-- C10, witness: a concrete label list with one directly-confident
annotation. -/
theorem c10_confidence_checker_witness :
    labelsRecognized [⟨[⟨some 0.5, []⟩]⟩] = true
    ∧ checkLabels [⟨[⟨some 0.5, []⟩]⟩] =
        .ok (labelsHaveConfidence [⟨[⟨some 0.5, []⟩]⟩]) :=
  ⟨rfl, c10_confidence_checker.1 [⟨[⟨some 0.5, []⟩]⟩] rfl⟩

end Labelbox
